import Mathlib

/-!
Shallow embedding of the per-connection pingpong dispatch loop of
volo-thrift (src/volo-thrift/src/transport/pingpong/server.rs, fn serve).

The loop is modelled as a per-turn step function over an environment that
records what the external collaborators (decoder, handler service, encoder,
cancellation signal, exit mark) do on that turn, producing a trace of
observable events (handler invocation, encoder invocation with message type
and sequence id, error logging, stat-tracer firing) together with the loop
outcome (continue, terminate, or panic).  A whole connection run folds the
step function over a list of turn environments.
-/

namespace VoloPingPong

/-- Thrift message types (pilota TMessageType, an external dependency of the
repository; only these four variants exist). -/
inductive TMessageType
  | call
  | reply
  | exception
  | oneWay
deriving DecidableEq

/-- Classification of a ThriftException as far as the loop inspects it: the
source only tests `matches!(e, ThriftException::Transport(_))` and passes the
error to the `should_log` predicate. -/
inductive ThriftException
  | transport
  | protocol
  | application
deriving DecidableEq

/-- Modelled from the spec: ServerContext (defined in the repository's
context.rs, which is not under src/).  Per the spec's data model it holds the
peer address, RPC metadata (request message type, response message type,
sequence id), process start/end timestamps, and a connection-reset flag; the
setter `set_conn_reset_by_ttheader(true)` and the getter
`transport.is_conn_reset()` used by the loop are modelled as one boolean
field `connReset`.  Timestamps are modelled as booleans recording that the
stamp was taken. -/
structure ServerContext where
  peerAddr : Option Nat := none
  reqMsgType : Option TMessageType := none
  msgType : Option TMessageType := none
  seqId : Nat := 0
  processStart : Bool := false
  processEnd : Bool := false
  connReset : Bool := false
deriving DecidableEq

/-- The default (freshly constructed) context: every field at its default. -/
def ServerContext.init : ServerContext := {}

/-- Modelled from the spec: ServerContext::reset resets the context to its
default value before it is returned to the pool. -/
def ServerContext.reset (_cx : ServerContext) : ServerContext :=
  ServerContext.init

/-- The connection-local context cache (SERVER_CONTEXT_CACHE): a bounded
stack of idle contexts with fixed capacity.  Rust Vec push/pop act on the
tail; the model stores the stack top at the list head. -/
structure Pool where
  items : List ServerContext
  capacity : Nat
deriving DecidableEq

/-- Acquire a context: pop the cache if non-empty, else construct a default
(`cache.pop().unwrap_or_default()`). -/
def Pool.acquire (p : Pool) : ServerContext × Pool :=
  match p.items with
  | [] => (ServerContext.init, p)
  | c :: rest => (c, { p with items := rest })

/-- Release a context: if `len < capacity` reset it and push it, otherwise
drop it (the release block at the end of a successful turn). -/
def Pool.release (p : Pool) (cx : ServerContext) : Pool :=
  if p.items.length < p.capacity then
    { p with items := cx.reset :: p.items }
  else
    p

/-- Every idle context in the pool is the default context. -/
def Pool.AllDefault (p : Pool) : Prop :=
  ∀ c ∈ p.items, c = ServerContext.init

/-- Observable events of one turn, in program order: the handler service is
called; the encoder is invoked with the envelope's message type and sequence
id (success flag records the encoder's result); an error line is logged; the
stat tracers are all fired once (`stat_tracer.iter().for_each`). -/
inductive Event
  | handlerCall
  | encode (mt : TMessageType) (seq : Nat) (success : Bool)
  | logErr
  | statTracers
deriving DecidableEq

/-- Outcome of the decode/cancellation race for one turn: the notified
signal wins; decode yields a framed message (`Ok(Some(_))`, with the data
payload either well-formed or an error, and the request message type and
sequence id the decoder wrote into the context); decode yields clean EOF
(`Ok(None)`); decode fails (`Err(e)`). -/
inductive DecodeOutcome
  | cancelled
  | msg (dataOk : Bool) (reqMsgType : Option TMessageType) (seqId : Nat)
  | eof
  | err (e : ThriftException)
deriving DecidableEq

/-- Environment of one turn: what the external collaborators do.
`handlerOk` is the handler result (Ok vs Err); `exitMark` is the value of
the exit mark sampled right after the handler returns; `encodeOk`/
`encodeErr` describe the encoder's behaviour on the response path, and
`errEncodeOk`/`errEncodeErr` on the decode-error path. -/
structure TurnEnv where
  dec : DecodeOutcome
  handlerOk : Bool
  exitMark : Bool
  encodeOk : Bool
  encodeErr : ThriftException
  errEncodeOk : Bool
  errEncodeErr : ThriftException
deriving DecidableEq

/-- Distinguishes the two panic sites of the loop body: the
`volo_unreachable!()` arm for `Ok(Some(ThriftMessage { data: Err(_) }))`,
and the `expect` on `cx.req_msg_type`. -/
inductive PanicKind
  | unreachableData
  | expectReqMsgType
deriving DecidableEq

/-- Result of one turn: continue looping with the updated pool, stop the
loop (the `return`/`break` paths) with the pool as it is left, or panic. -/
inductive TurnOut
  | next (pool : Pool)
  | stop (pool : Pool)
  | panicked (k : PanicKind)
deriving DecidableEq

/-- Tail of a processed-request turn, after the optional encode: re-check
of `cx.transport.is_conn_reset()` (stop if set, skipping the stat tracers),
else fire the stat tracers, clear the metainfo scope, and release the
context to the cache. -/
def finishTurn (cx : ServerContext) (tr : List Event) (pool : Pool) :
    List Event × TurnOut :=
  if cx.connReset then (tr, .stop pool)
  else (tr ++ [Event.statTracers], .next (pool.release cx))

/-- One turn of the dispatch loop after the context has been acquired,
following the body of fn serve line by line: stamp the peer address, race
decode against the cancellation signal, then dispatch on the decode
outcome. -/
def turnCore (shouldLog : ThriftException → Bool) (peer : Option Nat)
    (env : TurnEnv) (cx0 : ServerContext) (pool1 : Pool) :
    List Event × TurnOut :=
  let cx0 := match peer with
    | some p => { cx0 with peerAddr := some p }
    | none => cx0
  match env.dec with
  | .cancelled => ([], .stop pool1)
  | .msg dataOk rmt seq =>
    let cx := { cx0 with reqMsgType := rmt, seqId := seq }
    match dataOk with
    | false => ([], .panicked .unreachableData)
    | true =>
      let cx := { cx with processStart := true, processEnd := true }
      let tr : List Event := [Event.handlerCall]
      let cx := if env.exitMark then { cx with connReset := true } else cx
      match rmt with
      | none => (tr, .panicked .expectReqMsgType)
      | some t =>
        if t = TMessageType.oneWay then
          finishTurn cx tr pool1
        else
          let mt := if env.handlerOk then TMessageType.reply
            else TMessageType.exception
          let cx := { cx with msgType := some mt }
          let tr := tr ++ [Event.encode mt cx.seqId env.encodeOk]
          if env.encodeOk then
            finishTurn cx tr pool1
          else
            (tr ++ (if shouldLog env.encodeErr then [Event.logErr] else [])
               ++ [Event.statTracers],
             .stop pool1)
  | .eof => ([], .stop pool1)
  | .err e =>
    let cx := { cx0 with
      msgType := some TMessageType.exception
      connReset := true }
    let tr : List Event := if shouldLog e then [Event.logErr] else []
    let tr := if e = ThriftException.transport then tr
      else tr ++ [Event.encode TMessageType.exception cx.seqId env.errEncodeOk]
        ++ (if env.errEncodeOk then []
            else if shouldLog env.errEncodeErr then [Event.logErr] else [])
    (tr ++ [Event.statTracers], .stop pool1)

/-- One full turn: acquire the context from the cache, then run the loop
body. -/
def turn (shouldLog : ThriftException → Bool) (peer : Option Nat)
    (env : TurnEnv) (pool : Pool) : List Event × TurnOut :=
  turnCore shouldLog peer env pool.acquire.1 pool.acquire.2

/-- Final outcome of a connection run: the environment list was exhausted
(the loop would block on the next decode), the loop terminated (return or
break), or a panic site was hit. -/
inductive ServeOut
  | drained (pool : Pool)
  | terminated (pool : Pool)
  | panicked (k : PanicKind)
deriving DecidableEq

/-- The dispatch loop over a list of turn environments: run turns until one
stops or panics, concatenating the event traces. -/
def serve (shouldLog : ThriftException → Bool) (peer : Option Nat)
    (pool : Pool) : List TurnEnv → List Event × ServeOut
  | [] => ([], .drained pool)
  | env :: rest =>
    match turn shouldLog peer env pool with
    | (tr, .next p) =>
      let r := serve shouldLog peer p rest
      (tr ++ r.1, r.2)
    | (tr, .stop p) => (tr, .terminated p)
    | (tr, .panicked k) => (tr, .panicked k)

/-- Whether an event is an encoder invocation (wire output attempt). -/
def Event.isEncode : Event → Bool
  | .handlerCall => false
  | .encode _ _ _ => true
  | .logErr => false
  | .statTracers => false

/-- Whether an event is a stat-tracer firing. -/
def Event.isStat : Event → Bool
  | .handlerCall => false
  | .encode _ _ _ => false
  | .logErr => false
  | .statTracers => true

/-- Number of encoder invocations in a trace. -/
def encodeCount (tr : List Event) : Nat :=
  tr.countP Event.isEncode

/-- Number of stat-tracer firings in a trace. -/
def statCount (tr : List Event) : Nat :=
  tr.countP Event.isStat

/-- Whether a turn outcome continues the loop. -/
def TurnOut.isNext : TurnOut → Bool
  | .next _ => true
  | _ => false

/-- Whether a decode outcome has a well-formed data payload (never
`Ok(Some(ThriftMessage { data: Err(_) }))`). -/
def DecodeOutcome.dataWellFormed : DecodeOutcome → Bool
  | .msg false _ _ => false
  | _ => true

/-- Characterization (from the source) of the turns on which the stat
tracers fire: decode errors always; a well-formed request fires them unless
the turn is terminated by the forced connection-reset flag, i.e. a one-way
turn with the exit mark clear, or a two-way turn whose encode fails, or a
two-way turn whose encode succeeds with the exit mark clear; never on
cancellation or EOF. -/
def tracersFireSpec (env : TurnEnv) : Bool :=
  match env.dec with
  | .err _ => true
  | .msg true (some t) _ =>
    if t = TMessageType.oneWay then !env.exitMark
    else !env.encodeOk || !env.exitMark
  | _ => false

/-- A logging predicate that never logs, for concrete witnesses. -/
def slNever : ThriftException → Bool := fun _ => false

/-- An empty pool of capacity 4, for concrete witnesses. -/
def poolEmpty4 : Pool := { items := [], capacity := 4 }

/-- Concrete two-way turn whose reply is sent successfully while the exit
mark is set. -/
def envResetAfterReply : TurnEnv :=
  { dec := .msg true (some TMessageType.call) 7, handlerOk := true,
    exitMark := true, encodeOk := true, encodeErr := .transport,
    errEncodeOk := true, errEncodeErr := .transport }

/-- Concrete one-way turn. -/
def envOneWay : TurnEnv :=
  { dec := .msg true (some TMessageType.oneWay) 5, handlerOk := false,
    exitMark := false, encodeOk := true, encodeErr := .transport,
    errEncodeOk := true, errEncodeErr := .transport }

/-- Concrete one-way turn with the exit mark set. -/
def envOneWayReset : TurnEnv :=
  { dec := .msg true (some TMessageType.oneWay) 6, handlerOk := true,
    exitMark := true, encodeOk := true, encodeErr := .transport,
    errEncodeOk := true, errEncodeErr := .transport }

/-- Concrete cancelled turn. -/
def envCancelled : TurnEnv :=
  { dec := .cancelled, handlerOk := true, exitMark := false,
    encodeOk := true, encodeErr := .transport, errEncodeOk := true,
    errEncodeErr := .transport }

/-- Concrete decode-error turn with a protocol-class error whose best-effort
encode fails. -/
def envDecodeErr : TurnEnv :=
  { dec := .err .protocol, handlerOk := true, exitMark := false,
    encodeOk := true, encodeErr := .transport, errEncodeOk := false,
    errEncodeErr := .application }

/-- Concrete two-way turn whose handler fails and whose encode succeeds. -/
def envHandlerErr : TurnEnv :=
  { dec := .msg true (some TMessageType.call) 9, handlerOk := false,
    exitMark := false, encodeOk := true, encodeErr := .transport,
    errEncodeOk := true, errEncodeErr := .transport }

/-- Concrete two-way turn whose encode fails. -/
def envEncodeFail : TurnEnv :=
  { dec := .msg true (some TMessageType.call) 3, handlerOk := true,
    exitMark := false, encodeOk := false, encodeErr := .application,
    errEncodeOk := true, errEncodeErr := .transport }

/-- Concrete turn whose decoded envelope carries an error payload. -/
def envBadData : TurnEnv :=
  { dec := .msg false (some TMessageType.call) 2, handlerOk := true,
    exitMark := false, encodeOk := true, encodeErr := .transport,
    errEncodeOk := true, errEncodeErr := .transport }

/-- Concrete turn whose decoder left the request message type unset. -/
def envNoReqMsgType : TurnEnv :=
  { dec := .msg true none 4, handlerOk := true, exitMark := false,
    encodeOk := true, encodeErr := .transport, errEncodeOk := true,
    errEncodeErr := .transport }

theorem Pool.acquire_allDefault (p : Pool) (h : p.AllDefault) :
    p.acquire.1 = ServerContext.init := by
  rcases p with ⟨items, cap⟩
  cases items with
  | nil => rfl
  | cons c rest => exact h c (List.mem_cons_self c rest)

theorem countP_isEncode_finishTurn (cx : ServerContext) (tr : List Event)
    (p : Pool) :
    (finishTurn cx tr p).1.countP Event.isEncode
      = tr.countP Event.isEncode := by
  unfold finishTurn
  split <;>
    simp [List.countP_append, List.countP_cons, Event.isEncode]

theorem countP_isStat_finishTurn (cx : ServerContext) (tr : List Event)
    (p : Pool) :
    (finishTurn cx tr p).1.countP Event.isStat
      = tr.countP Event.isStat + (if cx.connReset then 0 else 1) := by
  unfold finishTurn
  split <;> rename_i h <;>
    simp [List.countP_append, List.countP_cons, Event.isStat, h]

theorem finishTurn_not_panicked (cx : ServerContext) (tr : List Event)
    (p : Pool) (k : PanicKind) :
    (finishTurn cx tr p).2 ≠ TurnOut.panicked k := by
  unfold finishTurn
  split <;> simp

/-- Claim C7: if the cancellation signal wins the decode race, the loop
exits immediately and cleanly: the turn's trace is empty (no frame written,
no handler call, no stat tracer), the loop outcome is stop, the acquired
context is discarded (the pool is left as popped, the context is not pushed
back), and a whole run terminates there with no further turn. -/
theorem cancellation_wins_clean_exit (sl : ThriftException → Bool)
    (peer : Option Nat) (env : TurnEnv) (pool : Pool) (rest : List TurnEnv)
    (hd : env.dec = DecodeOutcome.cancelled) :
    turn sl peer env pool = ([], TurnOut.stop pool.acquire.2)
    ∧ serve sl peer pool (env :: rest)
        = ([], ServeOut.terminated pool.acquire.2) := by
  have h1 : turn sl peer env pool = ([], TurnOut.stop pool.acquire.2) := by
    unfold turn turnCore
    rw [hd]
  exact ⟨h1, by simp [serve, h1]⟩

theorem cancellation_wins_clean_exit_witness :
    turn slNever none envCancelled poolEmpty4
      = ([], TurnOut.stop poolEmpty4.acquire.2)
    ∧ serve slNever none poolEmpty4 [envCancelled, envOneWay]
        = ([], ServeOut.terminated poolEmpty4.acquire.2) :=
  cancellation_wins_clean_exit slNever none envCancelled poolEmpty4
    [envOneWay] rfl

/-- Claim C5: a turn whose decoded request message type is one-way never
invokes the encoder — zero wire output — whatever the handler result or the
exit mark. -/
theorem one_way_zero_wire (sl : ThriftException → Bool) (peer : Option Nat)
    (env : TurnEnv) (pool : Pool) (sq : Nat)
    (hd : env.dec = DecodeOutcome.msg true (some TMessageType.oneWay) sq) :
    encodeCount (turn sl peer env pool).1 = 0 := by
  unfold turn turnCore
  rw [hd]
  simp [encodeCount, countP_isEncode_finishTurn, List.countP_cons,
    Event.isEncode]

theorem one_way_zero_wire_witness :
    encodeCount (turn slNever none envOneWay poolEmpty4).1 = 0 :=
  one_way_zero_wire slNever none envOneWay poolEmpty4 5 rfl

/-- Claim C1: when the exit mark is observed set immediately after the
handler returns on a two-way turn (and the encoder succeeds), the loop
still sends the reply for that request — the turn's trace is exactly the
handler call followed by one successful encode of the reply (or exception)
with the request's sequence id — and then stops; a whole run produces only
this turn's trace and terminates, so no new decode begins after the
cancellation is observed, whatever later turns the environment would have
offered. -/
theorem exit_mark_mid_handler_reply_then_stop (sl : ThriftException → Bool)
    (peer : Option Nat) (pool : Pool) (rest : List TurnEnv) (env : TurnEnv)
    (t : TMessageType) (sq : Nat)
    (hdec : env.dec = DecodeOutcome.msg true (some t) sq)
    (ht : t ≠ TMessageType.oneWay) (hem : env.exitMark = true)
    (henc : env.encodeOk = true) :
    turn sl peer env pool
      = ([Event.handlerCall,
          Event.encode
            (if env.handlerOk then TMessageType.reply
             else TMessageType.exception) sq true],
         TurnOut.stop pool.acquire.2)
    ∧ serve sl peer pool (env :: rest)
        = ((turn sl peer env pool).1,
           ServeOut.terminated pool.acquire.2) := by
  have h1 : turn sl peer env pool
      = ([Event.handlerCall,
          Event.encode
            (if env.handlerOk then TMessageType.reply
             else TMessageType.exception) sq true],
         TurnOut.stop pool.acquire.2) := by
    unfold turn turnCore
    rw [hdec, hem, henc]
    simp [finishTurn, ht]
  exact ⟨h1, by simp [serve, h1]⟩

theorem exit_mark_mid_handler_reply_then_stop_witness :
    turn slNever none envResetAfterReply poolEmpty4
      = ([Event.handlerCall, Event.encode TMessageType.reply 7 true],
         TurnOut.stop poolEmpty4.acquire.2)
    ∧ serve slNever none poolEmpty4 [envResetAfterReply, envOneWay]
        = ((turn slNever none envResetAfterReply poolEmpty4).1,
           ServeOut.terminated poolEmpty4.acquire.2) :=
  exit_mark_mid_handler_reply_then_stop slNever none poolEmpty4 [envOneWay]
    envResetAfterReply TMessageType.call 7 rfl (by decide) rfl rfl

theorem turn_ne_unreachable (sl : ThriftException → Bool)
    (peer : Option Nat) (env : TurnEnv) (pool : Pool)
    (h : env.dec.dataWellFormed = true) :
    (turn sl peer env pool).2
      ≠ TurnOut.panicked PanicKind.unreachableData := by
  unfold turn turnCore
  rcases env with ⟨dec, hOk, em, eOk, eErr, eeOk, eeErr⟩
  rcases dec with _ | ⟨dOk, rmt, sq⟩ | _ | e
  · simp
  · cases dOk with
    | false => simp [DecodeOutcome.dataWellFormed] at h
    | true =>
      rcases rmt with _ | t
      · simp
      · dsimp only
        split
        · exact finishTurn_not_panicked _ _ _ _
        · split
          · exact finishTurn_not_panicked _ _ _ _
          · simp
  · simp
  · simp

/-- Claim C9: a decoded envelope whose data payload is an error drives the
loop into the unreachable-assertion panic; and under the precondition that
every decode outcome has a well-formed data payload, no run ever ends in
that panic. -/
theorem unreachable_data_branch (sl : ThriftException → Bool)
    (peer : Option Nat) :
    (∀ (env : TurnEnv) (pool : Pool) (rmt : Option TMessageType) (sq : Nat),
      env.dec = DecodeOutcome.msg false rmt sq →
      turn sl peer env pool
        = ([], TurnOut.panicked PanicKind.unreachableData))
    ∧ (∀ (pool : Pool) (envs : List TurnEnv),
        (∀ env ∈ envs, env.dec.dataWellFormed = true) →
        (serve sl peer pool envs).2
          ≠ ServeOut.panicked PanicKind.unreachableData) := by
  constructor
  · intro env pool rmt sq hd
    unfold turn turnCore
    rw [hd]
  · intro pool envs h
    induction envs generalizing pool with
    | nil => simp [serve]
    | cons env rest ih =>
      have henv := h env (List.mem_cons_self _ _)
      have hrest : ∀ e ∈ rest, e.dec.dataWellFormed = true :=
        fun e he => h e (List.mem_cons_of_mem _ he)
      have hturn := turn_ne_unreachable sl peer env pool henv
      rcases hEq : turn sl peer env pool with ⟨tr, out⟩
      rw [hEq] at hturn
      rcases out with p | p | k
      · simpa [serve, hEq] using ih p hrest
      · simp [serve, hEq]
      · simp only at hturn
        simp [serve, hEq]
        simpa using hturn

theorem unreachable_data_branch_witness :
    turn slNever none envBadData poolEmpty4
      = ([], TurnOut.panicked PanicKind.unreachableData)
    ∧ (serve slNever none poolEmpty4 [envHandlerErr]).2
        ≠ ServeOut.panicked PanicKind.unreachableData :=
  ⟨(unreachable_data_branch slNever none).1 envBadData poolEmpty4
      (some TMessageType.call) 2 rfl,
   (unreachable_data_branch slNever none).2 poolEmpty4 [envHandlerErr]
      (by decide)⟩

/-- Claim C10: the expect-panic on the request message type happens on a
turn exactly when decode succeeded with a well-formed payload but left the
context's request message type unset; in particular reaching the
one-way/two-way branch presupposes that the decoder set it. -/
theorem expect_req_msg_type_iff (sl : ThriftException → Bool)
    (peer : Option Nat) (env : TurnEnv) (pool : Pool) :
    (turn sl peer env pool).2
        = TurnOut.panicked PanicKind.expectReqMsgType
      ↔ ∃ sq : Nat, env.dec = DecodeOutcome.msg true none sq := by
  unfold turn turnCore
  rcases env with ⟨dec, hOk, em, eOk, eErr, eeOk, eeErr⟩
  rcases dec with _ | ⟨dOk, rmt, sq⟩ | _ | e
  · simp
  · cases dOk with
    | false => simp
    | true =>
      rcases rmt with _ | t
      · simp
      · dsimp only
        constructor
        · intro hcontra
          exfalso
          revert hcontra
          split
          · exact finishTurn_not_panicked _ _ _ _
          · split
            · exact finishTurn_not_panicked _ _ _ _
            · simp
        · rintro ⟨sq2, hsq⟩
          simp at hsq
  · simp
  · simp

/-- Claim C3: a decode error always stops the loop, with the pool left as
popped; the trace is exactly: a log line iff the predicate allows it, then
— unless the error is transport-class — one best-effort exception encode
whose own failure adds at most a log line and is not escalated, then the
stat tracer firing; hence a transport-class error writes no frame, any
other decode error invokes the encoder exactly once, and the stat tracers
fire before termination in every decode-error case. -/
theorem decode_error_turn (sl : ThriftException → Bool) (peer : Option Nat)
    (env : TurnEnv) (pool : Pool) (e : ThriftException)
    (hd : env.dec = DecodeOutcome.err e) :
    turn sl peer env pool
      = ((if sl e then [Event.logErr] else [])
          ++ (if e = ThriftException.transport then []
              else Event.encode TMessageType.exception
                  pool.acquire.1.seqId env.errEncodeOk
                :: (if env.errEncodeOk then []
                    else if sl env.errEncodeErr then [Event.logErr] else []))
          ++ [Event.statTracers],
         TurnOut.stop pool.acquire.2)
    ∧ (e = ThriftException.transport →
        encodeCount (turn sl peer env pool).1 = 0)
    ∧ (e ≠ ThriftException.transport →
        encodeCount (turn sl peer env pool).1 = 1)
    ∧ Event.statTracers ∈ (turn sl peer env pool).1 := by
  have h1 : turn sl peer env pool
      = ((if sl e then [Event.logErr] else [])
          ++ (if e = ThriftException.transport then []
              else Event.encode TMessageType.exception
                  pool.acquire.1.seqId env.errEncodeOk
                :: (if env.errEncodeOk then []
                    else if sl env.errEncodeErr then [Event.logErr] else []))
          ++ [Event.statTracers],
         TurnOut.stop pool.acquire.2) := by
    unfold turn turnCore
    rw [hd]
    by_cases he : e = ThriftException.transport <;> cases peer <;>
      simp [he]
  refine ⟨h1, ?_, ?_, ?_⟩
  · intro he
    rw [h1]
    by_cases h2 : sl e <;>
      simp [he, h2, encodeCount, List.countP_append, List.countP_cons,
        Event.isEncode]
  · intro he
    rw [h1]
    by_cases h2 : sl e <;> by_cases h3 : env.errEncodeOk <;>
      by_cases h4 : sl env.errEncodeErr <;>
      simp [he, h2, h3, h4, encodeCount, List.countP_append,
        List.countP_cons, Event.isEncode]
  · rw [h1]
    simp

theorem decode_error_turn_witness :
    turn slNever none envDecodeErr poolEmpty4
      = ((if slNever ThriftException.protocol then [Event.logErr] else [])
          ++ (if ThriftException.protocol = ThriftException.transport then []
              else Event.encode TMessageType.exception
                  poolEmpty4.acquire.1.seqId envDecodeErr.errEncodeOk
                :: (if envDecodeErr.errEncodeOk then []
                    else if slNever envDecodeErr.errEncodeErr then
                      [Event.logErr] else []))
          ++ [Event.statTracers],
         TurnOut.stop poolEmpty4.acquire.2)
    ∧ (ThriftException.protocol = ThriftException.transport →
        encodeCount (turn slNever none envDecodeErr poolEmpty4).1 = 0)
    ∧ (ThriftException.protocol ≠ ThriftException.transport →
        encodeCount (turn slNever none envDecodeErr poolEmpty4).1 = 1)
    ∧ Event.statTracers ∈ (turn slNever none envDecodeErr poolEmpty4).1 :=
  decode_error_turn slNever none envDecodeErr poolEmpty4
    ThriftException.protocol rfl

/-- Claim C4: a two-way turn whose handler returns an error invokes the
encoder exactly once, with an envelope of message kind Exception carrying
the request's sequence id, through the normal encoding path; the loop
continues to the next turn exactly when the forced-reset flag is not
pending and the encode succeeded. -/
theorem handler_error_exception_reply (sl : ThriftException → Bool)
    (peer : Option Nat) (pool : Pool) (t : TMessageType) (sq : Nat)
    (em eOk : Bool) (eErr : ThriftException) (eeOk : Bool)
    (eeErr : ThriftException) (ht : t ≠ TMessageType.oneWay)
    (hAll : pool.AllDefault) :
    encodeCount
        (turn sl peer
          ⟨DecodeOutcome.msg true (some t) sq, false, em, eOk, eErr,
            eeOk, eeErr⟩ pool).1 = 1
    ∧ Event.encode TMessageType.exception sq eOk
        ∈ (turn sl peer
            ⟨DecodeOutcome.msg true (some t) sq, false, em, eOk, eErr,
              eeOk, eeErr⟩ pool).1
    ∧ (turn sl peer
          ⟨DecodeOutcome.msg true (some t) sq, false, em, eOk, eErr,
            eeOk, eeErr⟩ pool).2.isNext = (!em && eOk) := by
  have hcx := Pool.acquire_allDefault pool hAll
  unfold turn turnCore
  rw [hcx]
  cases peer <;> cases em <;> cases eOk <;>
    simp [finishTurn, Pool.release, ServerContext.init, ht, encodeCount,
      List.countP_append, List.countP_cons, Event.isEncode,
      TurnOut.isNext]

theorem handler_error_exception_reply_witness :
    encodeCount (turn slNever none envHandlerErr poolEmpty4).1 = 1
    ∧ Event.encode TMessageType.exception 9 true
        ∈ (turn slNever none envHandlerErr poolEmpty4).1
    ∧ (turn slNever none envHandlerErr poolEmpty4).2.isNext
        = (!false && true) :=
  handler_error_exception_reply slNever none poolEmpty4 TMessageType.call 9
    false true ThriftException.transport true ThriftException.transport
    (by decide) (by simp [Pool.AllDefault, poolEmpty4])

/-- Claim C8: a two-way turn whose encode fails produces exactly the trace
handler call, failed encode, a log line iff the logging predicate allows
the encode error, then the stat tracer firing; the loop stops and the
context is not returned to the pool (the pool is left as popped). -/
theorem encode_failure_terminates (sl : ThriftException → Bool)
    (peer : Option Nat) (pool : Pool) (t : TMessageType) (sq : Nat)
    (hOk em : Bool) (eErr : ThriftException) (eeOk : Bool)
    (eeErr : ThriftException) (ht : t ≠ TMessageType.oneWay) :
    turn sl peer
        ⟨DecodeOutcome.msg true (some t) sq, hOk, em, false, eErr,
          eeOk, eeErr⟩ pool
      = ([Event.handlerCall,
          Event.encode
            (if hOk then TMessageType.reply else TMessageType.exception)
            sq false]
          ++ (if sl eErr then [Event.logErr] else [])
          ++ [Event.statTracers],
         TurnOut.stop pool.acquire.2)
    ∧ (Event.logErr
        ∈ (turn sl peer
            ⟨DecodeOutcome.msg true (some t) sq, hOk, em, false, eErr,
              eeOk, eeErr⟩ pool).1 ↔ sl eErr = true)
    ∧ Event.statTracers
        ∈ (turn sl peer
            ⟨DecodeOutcome.msg true (some t) sq, hOk, em, false, eErr,
              eeOk, eeErr⟩ pool).1 := by
  have h1 : turn sl peer
      ⟨DecodeOutcome.msg true (some t) sq, hOk, em, false, eErr,
        eeOk, eeErr⟩ pool
      = ([Event.handlerCall,
          Event.encode
            (if hOk then TMessageType.reply else TMessageType.exception)
            sq false]
          ++ (if sl eErr then [Event.logErr] else [])
          ++ [Event.statTracers],
         TurnOut.stop pool.acquire.2) := by
    unfold turn turnCore
    cases em <;> simp [ht]
  refine ⟨h1, ?_, ?_⟩
  · rw [h1]
    by_cases hl : sl eErr <;> cases hOk <;> simp [hl]
  · rw [h1]
    simp

theorem encode_failure_terminates_witness :
    turn slNever none envEncodeFail poolEmpty4
      = ([Event.handlerCall,
          Event.encode
            (if true then TMessageType.reply else TMessageType.exception)
            3 false]
          ++ (if slNever ThriftException.application then [Event.logErr]
              else [])
          ++ [Event.statTracers],
         TurnOut.stop poolEmpty4.acquire.2)
    ∧ (Event.logErr ∈ (turn slNever none envEncodeFail poolEmpty4).1
        ↔ slNever ThriftException.application = true)
    ∧ Event.statTracers ∈ (turn slNever none envEncodeFail poolEmpty4).1 :=
  encode_failure_terminates slNever none poolEmpty4 TMessageType.call 3
    true false ThriftException.application true ThriftException.transport
    (by decide)

/-- Claim C2, counterexample: a two-way turn that successfully sends its
reply (one successful encode of a Reply envelope) and then terminates
because the forced connection-reset flag is set fires no stat tracer at
all, contradicting the claim that every completed turn invokes the stat
tracers. -/
theorem stat_tracers_skipped_on_reset_counterexample :
    turn slNever none envResetAfterReply poolEmpty4
      = ([Event.handlerCall, Event.encode TMessageType.reply 7 true],
         TurnOut.stop poolEmpty4)
    ∧ Event.statTracers ∉ (turn slNever none envResetAfterReply poolEmpty4).1
    ∧ Event.statTracers ∉ (turn slNever none envOneWayReset poolEmpty4).1 := by
  decide

/-- Claim C2, amended: the stat tracers fire exactly once on a turn iff
the turn is a decode error, a one-way request without the pending
forced-reset flag, a two-way request whose encode fails, or a two-way
request whose encode succeeds without the pending forced-reset flag; in
particular they do not fire on a turn terminated by the forced
connection-reset flag (after a successful reply or on a one-way request),
nor on cancellation or EOF. -/
theorem stat_tracers_fire_iff (sl : ThriftException → Bool)
    (peer : Option Nat) (env : TurnEnv) (pool : Pool)
    (hAll : pool.AllDefault) :
    statCount (turn sl peer env pool).1
      = if tracersFireSpec env then 1 else 0 := by
  have hcx := Pool.acquire_allDefault pool hAll
  unfold turn
  rw [hcx]
  rcases env with ⟨dec, hOk, em, eOk, eErr, eeOk, eeErr⟩
  rcases dec with _ | ⟨dOk, rmt, sq⟩ | _ | e
  · simp [turnCore, tracersFireSpec, statCount]
  · cases dOk with
    | false =>
      cases peer <;>
        simp [turnCore, tracersFireSpec, statCount]
    | true =>
      rcases rmt with _ | t
      · cases peer <;>
          simp [turnCore, tracersFireSpec, statCount, List.countP_cons,
            Event.isStat]
      · rcases eq_or_ne t TMessageType.oneWay with h | h
        · subst h
          cases peer <;> cases em <;>
            simp [turnCore, tracersFireSpec, statCount,
              countP_isStat_finishTurn, List.countP_cons, Event.isStat,
              ServerContext.init]
        · cases peer <;> cases em <;> cases eOk <;> cases hOk <;>
            by_cases hl : sl eErr <;>
            simp [turnCore, tracersFireSpec, statCount,
              countP_isStat_finishTurn, List.countP_append,
              List.countP_cons, Event.isStat, ServerContext.init, h, hl]
  · simp [turnCore, tracersFireSpec, statCount]
  · by_cases hl : sl e <;> by_cases h3 : e = ThriftException.transport <;>
      by_cases h4 : eeOk = true <;> by_cases h5 : sl eeErr <;>
      cases peer <;>
      simp [turnCore, tracersFireSpec, statCount, List.countP_append,
        List.countP_cons, Event.isStat, hl, h3, h4, h5]

theorem stat_tracers_fire_iff_witness :
    statCount (turn slNever none envOneWay poolEmpty4).1
      = if tracersFireSpec envOneWay then 1 else 0 :=
  stat_tracers_fire_iff slNever none envOneWay poolEmpty4
    (by simp [Pool.AllDefault, poolEmpty4])

/-- Claim C6: the context pool operations — acquire pops the most recently
released idle context if the pool is non-empty and otherwise constructs a
default; release resets the context to default and pushes it iff length is
below capacity, else drops it unchanged; release preserves the length
bound, acquire never grows the pool, and when every idle context is the
default, an acquire (pool hit or miss) yields a context with all fields at
their defaults and both operations preserve that invariant. -/
theorem context_pool_ops :
    (∀ (p : Pool) (c : ServerContext) (rest : List ServerContext),
      p.items = c :: rest → p.acquire = (c, { p with items := rest }))
    ∧ (∀ p : Pool, p.items = [] →
        p.acquire = (ServerContext.init, p))
    ∧ (∀ (p : Pool) (cx : ServerContext),
        p.items.length < p.capacity →
        p.release cx = { p with items := ServerContext.init :: p.items })
    ∧ (∀ (p : Pool) (cx : ServerContext),
        ¬ p.items.length < p.capacity → p.release cx = p)
    ∧ (∀ (p : Pool) (cx : ServerContext),
        p.items.length ≤ p.capacity →
        (p.release cx).items.length ≤ p.capacity)
    ∧ (∀ p : Pool, p.acquire.2.items.length ≤ p.items.length)
    ∧ (∀ p : Pool, p.AllDefault →
        p.acquire.1 = ServerContext.init ∧ p.acquire.2.AllDefault)
    ∧ (∀ (p : Pool) (cx : ServerContext),
        p.AllDefault → (p.release cx).AllDefault) := by
  refine ⟨?_, ?_, ?_, ?_, ?_, ?_, ?_, ?_⟩
  · rintro ⟨items, cap⟩ c rest h
    cases h
    rfl
  · rintro ⟨items, cap⟩ h
    cases h
    rfl
  · intro p cx h
    simp [Pool.release, h, ServerContext.reset]
  · intro p cx h
    simp [Pool.release, h]
  · intro p cx h
    unfold Pool.release
    split <;> rename_i h2
    · simp
      omega
    · exact h
  · rintro ⟨items, cap⟩
    cases items <;> simp [Pool.acquire]
  · rintro ⟨items, cap⟩ h
    refine ⟨Pool.acquire_allDefault _ h, ?_⟩
    cases items with
    | nil => exact h
    | cons c rest =>
      intro x hx
      exact h x (List.mem_cons_of_mem _ hx)
  · intro p cx h
    unfold Pool.release
    split
    · intro x hx
      rcases List.mem_cons.mp hx with h1 | h1
      · rw [h1, ServerContext.reset]
      · exact h x h1
    · exact h

theorem context_pool_ops_witness :
    Pool.acquire { items := [ServerContext.init], capacity := 2 }
      = (ServerContext.init, { items := [], capacity := 2 })
    ∧ Pool.acquire poolEmpty4 = (ServerContext.init, poolEmpty4)
    ∧ Pool.release poolEmpty4 ServerContext.init
      = { items := [ServerContext.init], capacity := 4 }
    ∧ Pool.release { items := [ServerContext.init], capacity := 1 }
        ServerContext.init
      = { items := [ServerContext.init], capacity := 1 }
    ∧ (Pool.release poolEmpty4 ServerContext.init).items.length
        ≤ poolEmpty4.capacity
    ∧ (Pool.acquire poolEmpty4).2.items.length ≤ poolEmpty4.items.length
    ∧ (Pool.acquire poolEmpty4).1 = ServerContext.init
      ∧ (Pool.acquire poolEmpty4).2.AllDefault :=
  ⟨context_pool_ops.1 _ ServerContext.init [] rfl,
   context_pool_ops.2.1 poolEmpty4 rfl,
   context_pool_ops.2.2.1 poolEmpty4 ServerContext.init (by decide),
   context_pool_ops.2.2.2.1 { items := [ServerContext.init], capacity := 1 }
     ServerContext.init (by decide),
   context_pool_ops.2.2.2.2.1 poolEmpty4 ServerContext.init (by decide),
   context_pool_ops.2.2.2.2.2.1 poolEmpty4,
   context_pool_ops.2.2.2.2.2.2.1 poolEmpty4
     (by simp [Pool.AllDefault, poolEmpty4])⟩

end VoloPingPong
